import Mathlib

/-!
Verification of the persistence layer and startup logic of the magnetico
repository (izolight/magnetico).  The Go code in `pkg/persistence` (the
sqlite3 and postgres implementations of the `Database` interface), the
scheme dispatch in `interface.go`, and the startup control flow of
`cmd/magneticow/main.go` are shallowly embedded as executable Lean
functions over an explicit database-state record.  SQL statements are
modelled by their effect on that record, following the schema DDL of
`setupDatabase` (UNIQUE info_hash, CHECK constraints, foreign keys with
PRAGMA foreign_keys=ON, and the per-connection last-insert rowid used by
`sql.Result.LastInsertId`).
-/

deriving instance DecidableEq for Except

namespace Magnetico

/-- Go byte strings (Go `string` and `[]byte` are byte sequences, not
necessarily valid UTF-8). -/
abbrev Bytes := List Nat

/-! ### Go unicode/utf8 decoding, as used by `fixUTF8Encoding` (postgres.go)

The `for _, c := range in` loop of Go decodes UTF-8 greedily; every
ill-formed byte (bad lead byte, bad continuation, overlong form,
surrogate, value above U+10FFFF, or truncated tail) yields the
replacement rune U+FFFD and consumes exactly one byte.  `utf8Runes`
returns the decoded rune values paired with a flag telling whether the
step was a proper decode (`true`) or an error (`false`). -/

/-- A UTF-8 continuation byte, 0x80..0xBF. -/
def isCont (c : Nat) : Bool := decide (0x80 ≤ c) && decide (c ≤ 0xBF)

/-- Allowed second byte of a three-byte sequence for lead byte c0
(Go rejects overlong forms for 0xE0 and surrogates for 0xED). -/
def threeByteOk (c0 c1 : Nat) : Bool :=
  if c0 = 0xE0 then decide (0xA0 ≤ c1) && decide (c1 ≤ 0xBF)
  else if c0 = 0xED then decide (0x80 ≤ c1) && decide (c1 ≤ 0x9F)
  else isCont c1

/-- Allowed second byte of a four-byte sequence for lead byte c0
(Go rejects overlong forms for 0xF0 and values above U+10FFFF for 0xF4). -/
def fourByteOk (c0 c1 : Nat) : Bool :=
  if c0 = 0xF0 then decide (0x90 ≤ c1) && decide (c1 ≤ 0xBF)
  else if c0 = 0xF4 then decide (0x80 ≤ c1) && decide (c1 ≤ 0x8F)
  else isCont c1

/-- One step of Go rune decoding (utf8.DecodeRuneInString): given the
first byte and the remaining bytes, a proper decode yields the rune and
the bytes after the whole sequence; any ill-formed or truncated sequence
yields none (Go then produces U+FFFD and consumes exactly one byte). -/
def utf8Decode1 (c0 : Nat) (rest : Bytes) : Option (Nat × Bytes) :=
  if c0 ≤ 0x7F then some (c0, rest)
  else if decide (0xC2 ≤ c0) && decide (c0 ≤ 0xDF) then
    match rest with
    | c1 :: rest2 =>
      if isCont c1 then some ((c0 - 0xC0) * 0x40 + (c1 - 0x80), rest2) else none
    | [] => none
  else if decide (0xE0 ≤ c0) && decide (c0 ≤ 0xEF) then
    match rest with
    | c1 :: c2 :: rest3 =>
      if threeByteOk c0 c1 && isCont c2 then
        some ((c0 - 0xE0) * 0x1000 + (c1 - 0x80) * 0x40 + (c2 - 0x80), rest3)
      else none
    | _ => none
  else if decide (0xF0 ≤ c0) && decide (c0 ≤ 0xF4) then
    match rest with
    | c1 :: c2 :: c3 :: rest4 =>
      if fourByteOk c0 c1 && isCont c2 && isCont c3 then
        some ((c0 - 0xF0) * 0x40000 + (c1 - 0x80) * 0x1000 + (c2 - 0x80) * 0x40 + (c3 - 0x80),
          rest4)
      else none
    | _ => none
  else none

/-- Iterate `utf8Decode1` as the Go range loop does.  The fuel argument
only serves structural termination: every step consumes at least one
byte, so fuel equal to the length of the byte string always suffices
(`utf8Runes_cons` below recovers the exact step recurrence). -/
def utf8RunesAux : Nat → Bytes → List (Nat × Bool)
  | _, [] => []
  | 0, _ :: _ => []
  | fuel + 1, c0 :: rest =>
    match utf8Decode1 c0 rest with
    | some (r, t) => (r, true) :: utf8RunesAux fuel t
    | none => (0xFFFD, false) :: utf8RunesAux fuel rest

/-- Decode a byte string into the sequence of runes produced by a Go
range loop, each paired with whether the decode step was proper. -/
def utf8Runes (b : Bytes) : List (Nat × Bool) := utf8RunesAux b.length b

/-- Go `utf8.ValidString`: every decode step of the range loop is proper. -/
def validString (b : Bytes) : Bool := (utf8Runes b).all (fun p => p.2)

/-- One iteration of the fixing loop body of `fixUTF8Encoding`: keep
`byte(c)` (truncation to the low 8 bits) for every decoded rune c that
is not `utf8.RuneError`. -/
def onePass (b : Bytes) : Bytes :=
  (utf8Runes b).filterMap (fun p => if p.1 = 0xFFFD then none else some (p.1 % 256))

theorem utf8RunesAux_nil (f : Nat) : utf8RunesAux f [] = [] := by cases f <;> rfl

theorem utf8Runes_nil : utf8Runes [] = [] := rfl

theorem onePass_nil : onePass [] = [] := rfl

theorem validString_nil : validString [] = true := rfl

theorem utf8Decode1_tail_le (c0 : Nat) (rest : Bytes) (r : Nat) (t : Bytes)
    (h : utf8Decode1 c0 rest = some (r, t)) : t.length ≤ rest.length := by
  unfold utf8Decode1 at h
  iterate 8 (all_goals try split at h)
  all_goals first
  | (simp only [Option.some.injEq, Prod.mk.injEq] at h
     obtain ⟨h1, h2⟩ := h
     subst h2
     (try simp only [List.length_cons])
     omega)
  | simp at h

theorem utf8RunesAux_fuel : ∀ (f1 f2 : Nat) (b : Bytes), b.length ≤ f1 → b.length ≤ f2 →
    utf8RunesAux f1 b = utf8RunesAux f2 b := by
  intro f1
  induction f1 with
  | zero =>
    intro f2 b h1 _
    have hb : b = [] := List.length_eq_zero.mp (Nat.le_zero.mp h1)
    subst hb
    rw [utf8RunesAux_nil, utf8RunesAux_nil]
  | succ f ih =>
    intro f2 b h1 h2
    cases b with
    | nil => rw [utf8RunesAux_nil, utf8RunesAux_nil]
    | cons c0 rest =>
      cases f2 with
      | zero => simp at h2
      | succ g =>
        simp only [utf8RunesAux]
        cases hd : utf8Decode1 c0 rest with
        | none =>
          simp only [List.length_cons] at h1 h2
          show (0xFFFD, false) :: utf8RunesAux f rest = (0xFFFD, false) :: utf8RunesAux g rest
          rw [ih g rest (by omega) (by omega)]
        | some p =>
          obtain ⟨r, t⟩ := p
          have ht := utf8Decode1_tail_le c0 rest r t hd
          simp only [List.length_cons] at h1 h2
          show (r, true) :: utf8RunesAux f t = (r, true) :: utf8RunesAux g t
          rw [ih g t (by omega) (by omega)]

/-- The step recurrence of the Go range loop: a proper decode emits the
rune and continues after the sequence; an error emits U+FFFD and
continues after one byte. -/
theorem utf8Runes_cons (c0 : Nat) (rest : Bytes) :
    utf8Runes (c0 :: rest) =
      match utf8Decode1 c0 rest with
      | some (r, t) => (r, true) :: utf8Runes t
      | none => (0xFFFD, false) :: utf8Runes rest := by
  show utf8RunesAux (rest.length + 1) (c0 :: rest) = _
  simp only [utf8RunesAux]
  cases hd : utf8Decode1 c0 rest with
  | none => rfl
  | some p =>
    obtain ⟨r, t⟩ := p
    have ht := utf8Decode1_tail_le c0 rest r t hd
    show (r, true) :: utf8RunesAux rest.length t = (r, true) :: utf8Runes t
    rw [utf8Runes, utf8RunesAux_fuel rest.length t.length t ht le_rfl]

theorem onePass_le_aux : ∀ (n : Nat) (b : Bytes), b.length ≤ n →
    (onePass b).length ≤ b.length := by
  intro n
  induction n with
  | zero =>
    intro b hb
    have : b = [] := List.length_eq_zero.mp (Nat.le_zero.mp hb)
    subst this
    rw [onePass_nil]
  | succ m ih =>
    intro b hb
    cases b with
    | nil => rw [onePass_nil]
    | cons c0 rest =>
      rw [onePass, utf8Runes_cons]
      simp only [List.length_cons] at hb
      cases hd : utf8Decode1 c0 rest with
      | none =>
        have hr : (onePass rest).length ≤ rest.length := ih rest (by omega)
        simp only [List.filterMap_cons, reduceIte]
        rw [← onePass]
        simp only [List.length_cons]
        omega
      | some p =>
        obtain ⟨r, t⟩ := p
        have ht := utf8Decode1_tail_le c0 rest r t hd
        have hr : (onePass t).length ≤ t.length := ih t (by omega)
        simp only [List.filterMap_cons]
        rw [← onePass]
        split <;> simp only [List.length_cons] <;> omega

theorem onePass_length_le (b : Bytes) : (onePass b).length ≤ b.length :=
  onePass_le_aux b.length b le_rfl

theorem onePass_lt_aux : ∀ (n : Nat) (b : Bytes), b.length ≤ n →
    validString b = false → 0 < b.length → (onePass b).length < b.length := by
  intro n
  induction n with
  | zero =>
    intro b hb _ hpos
    omega
  | succ m ih =>
    intro b hb hv hpos
    cases b with
    | nil => simp at hpos
    | cons c0 rest =>
      rw [onePass, utf8Runes_cons]
      simp only [List.length_cons] at hb
      cases hd : utf8Decode1 c0 rest with
      | none =>
        have hr : (onePass rest).length ≤ rest.length := onePass_length_le rest
        simp only [List.filterMap_cons, reduceIte]
        rw [← onePass]
        simp only [List.length_cons]
        omega
      | some p =>
        obtain ⟨r, t⟩ := p
        have ht := utf8Decode1_tail_le c0 rest r t hd
        rw [validString, utf8Runes_cons, hd] at hv
        simp only [List.all_cons, Bool.true_and] at hv
        rw [← validString] at hv
        have htv : validString t = false := hv
        have htpos : 0 < t.length := by
          rcases Nat.eq_zero_or_pos t.length with hz | hp
          · rw [List.length_eq_zero.mp hz] at htv
            rw [validString_nil] at htv
            cases htv
          · exact hp
        have hr : (onePass t).length < t.length := ih t (by omega) htv htpos
        simp only [List.filterMap_cons]
        rw [← onePass]
        split <;> simp only [List.length_cons] <;> omega

theorem onePass_length_lt (b : Bytes) (hv : validString b = false) (hne : 0 < b.length) :
    (onePass b).length < b.length :=
  onePass_lt_aux b.length b le_rfl hv hne

/-- The byte string of the literal "Invalid UTF-8" returned by
`fixUTF8Encoding` when everything was stripped. -/
def invalidUTF8Msg : Bytes :=
  [0x49, 0x6E, 0x76, 0x61, 0x6C, 0x69, 0x64, 0x20, 0x55, 0x54, 0x46, 0x2D, 0x38]

/-- postgres.go `fixUTF8Encoding`: repeat the stripping pass while the
string is nonempty and not valid UTF-8; return the result if nonempty,
else the literal "Invalid UTF-8". -/
def fixUTF8Encoding (s : Bytes) : Bytes :=
  if h : validString s = false ∧ 0 < s.length then fixUTF8Encoding (onePass s)
  else if 0 < s.length then s
  else invalidUTF8Msg
termination_by s.length
decreasing_by exact onePass_length_lt s h.1 h.2

theorem fixUTF8Encoding_valid_aux : ∀ (n : Nat) (s : Bytes), s.length ≤ n →
    validString (fixUTF8Encoding s) = true := by
  intro n
  induction n with
  | zero =>
    intro s hs
    have : s = [] := List.length_eq_zero.mp (Nat.le_zero.mp hs)
    subst this
    rw [fixUTF8Encoding]
    rw [dif_neg (by decide)]
    decide
  | succ m ih =>
    intro s hs
    rw [fixUTF8Encoding]
    split
    · next h =>
      have hlt := onePass_length_lt s h.1 h.2
      exact ih (onePass s) (by omega)
    · next h =>
      split
      · next hp =>
        cases hvs : validString s with
        | false => exact absurd ⟨hvs, hp⟩ h
        | true => rfl
      · decide

/-- Whatever the input, `fixUTF8Encoding` returns valid UTF-8. -/
theorem fixUTF8Encoding_valid (s : Bytes) : validString (fixUTF8Encoding s) = true :=
  fixUTF8Encoding_valid_aux s.length s le_rfl

/-! ### Data model (pkg/persistence/interface.go) -/

/-- interface.go `File`: Size uint64, Path string. -/
structure File where
  size : Nat
  path : Bytes
deriving DecidableEq, Repr

/-- interface.go `TorrentMetadata`. -/
structure TorrentMetadata where
  infoHash : Bytes
  name : Bytes
  size : Nat
  discoveredOn : Int
  nFiles : Nat
  id : Nat
deriving DecidableEq, Repr

/-- interface.go `Statistics`. -/
structure Statistics where
  N : Nat
  NTorrents : List Nat
  NFiles : List Nat
  TotalSize : List Nat
deriving DecidableEq, Repr

/-- interface.go `OrderingCriteria`. -/
inductive OrderingCriteria where
  | ByRelevance
  | BySize
  | ByDiscoveredOn
  | ByNFiles
  | ByNSeeders
  | ByNLeechers
deriving DecidableEq, Repr

/-- A row of the `torrents` table (columns of the frozen v0 schema that
the embedded operations touch; `id INTEGER PRIMARY KEY` and the
`UNIQUE` constraint on `info_hash` are enforced by the operations). -/
structure TorrentRow where
  id : Nat
  infoHash : Bytes
  name : Bytes
  totalSize : Nat
  discoveredOn : Int
deriving DecidableEq, Repr

/-- A row of the `files` table. -/
structure FileRow where
  id : Nat
  torrentId : Nat
  size : Nat
  path : Bytes
deriving DecidableEq, Repr

/-- Database state: the two tables, the next fresh primary key of each
(SQLite rowid allocation and postgres SERIAL both hand out 1, 2, ...),
and the SQLite connection state `sqlite3_last_insert_rowid` read by
`sql.Result.LastInsertId` (0 on a fresh connection; updated by every
successful INSERT on the connection; unchanged by an ignored insert). -/
structure DBState where
  torrents : List TorrentRow
  files : List FileRow
  nextTorrentId : Nat
  nextFileId : Nat
  lastInsertRowid : Nat
deriving DecidableEq, Repr

/-- The state of a freshly created database file. -/
def emptyDB : DBState := ⟨[], [], 1, 1, 0⟩

/-- True when a torrents row with this info_hash exists. -/
def hashExists (db : DBState) (infoHash : Bytes) : Bool :=
  db.torrents.any (fun t => t.infoHash == infoHash)

/-- Go uint64 wraparound. -/
def go64 (n : Nat) : Nat := n % 18446744073709551616

/-- The totalSize accumulation loop of AddNewTorrent: uint64 addition. -/
def sumSizes (files : List File) : Nat :=
  files.foldl (fun acc f => go64 (acc + go64 f.size)) 0

/-- database/sql rejects binding a uint64 whose high bit is set
("uint64 values with high bit set are not supported"). -/
def uint64HighBit (n : Nat) : Bool := decide (9223372036854775808 ≤ n)

/-! ### sqlite3 implementation (the sqlite3.go source, src/unnamed/part_003) -/

/-- The file-insertion loop of sqlite3 `AddNewTorrent`: each iteration
runs `INSERT INTO files (torrent_id, size, path) VALUES (?, ?, ?)` with
the captured `lastInsertId`.  With `PRAGMA foreign_keys=ON`, the insert
fails unless a torrents row with id = torrent_id exists; a failure
returns the error and the transaction is rolled back (the caller then
reports the error with no state change).  Every successful insert
updates the connection rowid. -/
def sqlite3InsertFiles (db : DBState) (lastInsertId : Nat) :
    List File → Except String DBState
  | [] => .ok db
  | f :: fs =>
    if uint64HighBit (go64 f.size) then
      .error "sql: uint64 values with high bit set are not supported"
    else if db.torrents.any (fun t => t.id == lastInsertId) then
      sqlite3InsertFiles
        { db with
          files := db.files ++ [⟨db.nextFileId, lastInsertId, go64 f.size, f.path⟩],
          nextFileId := db.nextFileId + 1,
          lastInsertRowid := db.nextFileId }
        lastInsertId fs
    else .error "FOREIGN KEY constraint failed"

/-- sqlite3 `AddNewTorrent`: computes the total size with uint64
wraparound, silently returns on total size 0, runs the conflict-ignoring
torrent insert (skipped when the UNIQUE info_hash or the
CHECK(discovered_on > 0) constraint would be violated), reads
`LastInsertId` from the connection (stale when the insert was ignored),
then inserts the file rows with that id and commits. -/
def sqlite3AddNewTorrent (db : DBState) (infoHash : Bytes) (name : Bytes)
    (files : List File) (now : Int) : Except String DBState :=
  if sumSizes files = 0 then .ok db
  else if uint64HighBit (sumSizes files) then
    .error "sql: uint64 values with high bit set are not supported"
  else if !hashExists db infoHash && decide (0 < now) then
    -- the insert succeeds: LastInsertId is the fresh torrent rowid
    sqlite3InsertFiles
      { db with
        torrents :=
          db.torrents ++ [⟨db.nextTorrentId, infoHash, name, sumSizes files, now⟩],
        nextTorrentId := db.nextTorrentId + 1,
        lastInsertRowid := db.nextTorrentId }
      db.nextTorrentId files
  else
    -- the insert is ignored: LastInsertId is the stale connection rowid
    sqlite3InsertFiles db db.lastInsertRowid files

/-- sqlite3 `DoesTorrentExist`: SELECT 1 FROM torrents WHERE info_hash =
?, paired with a nil error. -/
def sqlite3DoesTorrentExist (db : DBState) (infoHash : Bytes) : Except String Bool :=
  .ok (hashExists db infoHash)

/-- Number of file rows of a torrent (the n_files correlated subquery). -/
def nFilesOf (db : DBState) (torrentId : Nat) : Nat :=
  (db.files.filter (fun f => f.torrentId == torrentId)).length

/-- sqlite3 `GetTorrent`: the single row with the given info_hash, or a
nil pointer with a nil error when no row matches. -/
def sqlite3GetTorrent (db : DBState) (infoHash : Bytes) :
    Except String (Option TorrentMetadata) :=
  match db.torrents.find? (fun t => t.infoHash == infoHash) with
  | none => .ok none
  | some t => .ok (some ⟨t.infoHash, t.name, t.totalSize, t.discoveredOn, nFilesOf db t.id, t.id⟩)

/-- sqlite3 `GetFiles`: size and path of the files joined through the
torrents row with the given info_hash. -/
def sqlite3GetFiles (db : DBState) (infoHash : Bytes) : Except String (List File) :=
  .ok ((db.files.filter (fun f =>
    db.torrents.any (fun t => t.id == f.torrentId && t.infoHash == infoHash))).map
      (fun f => ⟨f.size, f.path⟩))

/-! ### postgres implementation (pkg/persistence/postgres.go) -/

/-- The pq.CopyIn loop of postgres `AddNewTorrent`: inserts each file
row with the returned torrent id and a sanitized path. -/
def postgresInsertFiles (db : DBState) (torrentId : Nat) :
    List File → Except String DBState
  | [] => .ok db
  | f :: fs =>
    if uint64HighBit (go64 f.size) then
      .error "pq: uint64 values with high bit set are not supported"
    else
      postgresInsertFiles
        { db with
          files := db.files ++ [⟨db.nextFileId, torrentId, go64 f.size, fixUTF8Encoding f.path⟩],
          nextFileId := db.nextFileId + 1 }
        torrentId fs

/-- postgres `AddNewTorrent`: computes the total size with uint64
wraparound, silently returns on total size 0, then runs
`INSERT ... ON CONFLICT DO NOTHING RETURNING id` and scans the returned
id: when the info_hash already exists the insert is suppressed, no row
is returned, and `Scan` fails with sql.ErrNoRows, so the call returns an
error and the transaction is rolled back.  Name and file paths go
through `fixUTF8Encoding`. -/
def postgresAddNewTorrent (db : DBState) (infoHash : Bytes) (name : Bytes)
    (files : List File) (now : Int) : Except String DBState :=
  if sumSizes files = 0 then .ok db
  else if uint64HighBit (sumSizes files) then
    .error "pq: uint64 values with high bit set are not supported"
  else if hashExists db infoHash then
    .error "could not insert torrent: sql: no rows in result set"
  else
    postgresInsertFiles
      { db with
        torrents :=
          db.torrents ++
            [⟨db.nextTorrentId, infoHash, fixUTF8Encoding name, sumSizes files, now⟩],
        nextTorrentId := db.nextTorrentId + 1 }
      db.nextTorrentId files

/-- postgres `DoesTorrentExist` (same query as sqlite3). -/
def postgresDoesTorrentExist (db : DBState) (infoHash : Bytes) : Except String Bool :=
  .ok (hashExists db infoHash)

/-- postgres `GetTorrent`: again nil pointer and nil error when no row
matches (the scanned columns do not include the id). -/
def postgresGetTorrent (db : DBState) (infoHash : Bytes) :
    Except String (Option TorrentMetadata) :=
  match db.torrents.find? (fun t => t.infoHash == infoHash) with
  | none => .ok none
  | some t => .ok (some ⟨t.infoHash, t.name, t.totalSize, t.discoveredOn, nFilesOf db t.id, 0⟩)

/-! ### QueryTorrents -/

/-- Insertion of one element into a list sorted by the boolean
less-or-equal test (models the total ORDER BY comparison). -/
def insertSorted (le : TorrentRow × Int → TorrentRow × Int → Bool) (x : TorrentRow × Int) :
    List (TorrentRow × Int) → List (TorrentRow × Int)
  | [] => [x]
  | y :: ys => if le x y then x :: y :: ys else y :: insertSorted le x ys

/-- Sort by the boolean less-or-equal test. -/
def sortRows (le : TorrentRow × Int → TorrentRow × Int → Bool)
    (l : List (TorrentRow × Int)) : List (TorrentRow × Int) :=
  l.foldr (insertSorted le) []

/-- sqlite3.go `orderOn`: the ORDER BY column for each criterion; the Go
default branch panics, returned here as none. -/
def orderOn (orderBy : OrderingCriteria) : Option String :=
  match orderBy with
  | .ByRelevance => some "idx.rank"
  | .BySize => some "total_size"
  | .ByDiscoveredOn => some "discovered_on"
  | .ByNFiles => some "n_files"
  | _ => none

/-- The value of the ORDER BY column for a row; for ByRelevance the rank
is the bm25 value attached by the FTS join. -/
def orderValue (db : DBState) (orderBy : OrderingCriteria) (p : TorrentRow × Int) : Int :=
  match orderBy with
  | .ByRelevance => p.2
  | .BySize => (p.1.totalSize : Int)
  | .ByDiscoveredOn => p.1.discoveredOn
  | .ByNFiles => (nFilesOf db p.1.id : Int)
  | _ => 0

/-- Execution of the SQL text produced by the query template of sqlite3
`QueryTorrents` once both validations passed: optional FTS join (the
bm25 match oracle stands for the torrents_idx MATCH semantics),
discovered_on <= epoch filter, keyset pagination condition, ORDER BY
with id tiebreak, LIMIT. -/
def sqlite3QueryExec (db : DBState) (bm25 : Bytes → Bytes → Option Int) (query : Bytes)
    (epoch : Int) (orderBy : OrderingCriteria) (ascending : Bool) (limit : Nat)
    (lastOrderedValue lastID : Nat) (backward : Bool) : List TorrentMetadata :=
  let doJoin := query ≠ []
  let firstPage := lastID = 0
  let gtelte := ascending ≠ backward
  let joined : List (TorrentRow × Int) :=
    db.torrents.filterMap (fun t =>
      if doJoin then (bm25 query t.name).map (fun r => (t, r)) else some (t, 0))
  let inEpoch := joined.filter (fun p => decide (p.1.discoveredOn ≤ epoch))
  let paged :=
    if firstPage then inEpoch
    else
      inEpoch.filter (fun p =>
        let v := orderValue db orderBy p
        if backward then
          (decide (p.1.id < lastID) && decide (v = (lastOrderedValue : Int))) ||
            (if gtelte then decide ((lastOrderedValue : Int) < v)
             else decide (v < (lastOrderedValue : Int)))
        else
          (decide (lastID < p.1.id) && decide (v = (lastOrderedValue : Int))) ||
            (if gtelte then decide ((lastOrderedValue : Int) < v)
             else decide (v < (lastOrderedValue : Int))))
  let le := fun a b =>
    let va := orderValue db orderBy a
    let vb := orderValue db orderBy b
    if va = vb then decide (a.1.id ≤ b.1.id)
    else if gtelte then decide (va < vb) else decide (vb < va)
  ((sortRows le paged).take limit).map (fun p =>
    ⟨p.1.infoHash, p.1.name, p.1.totalSize, p.1.discoveredOn, nFilesOf db p.1.id, p.1.id⟩)

/-- sqlite3 `QueryTorrents`: the two argument validations run before any
database access; the Go code then panics inside `orderOn` for the
criteria outside the template (modelled as an error). -/
def sqlite3QueryTorrents (db : DBState) (bm25 : Bytes → Bytes → Option Int) (query : Bytes)
    (epoch : Int) (orderBy : OrderingCriteria) (ascending : Bool) (limit : Nat)
    (lastOrderedValue lastID : Nat) (backward : Bool) : Except String (List TorrentMetadata) :=
  if query = [] && orderBy == .ByRelevance then
    .error "torrents cannot be ordered by relevance when the query is empty"
  else if (decide (lastOrderedValue = 0)) != (decide (lastID = 0)) then
    .error "lastOrderedValue and lastID should be supplied together, if supplied"
  else
    match orderOn orderBy with
    | none => .error "panic: unknown orderBy"
    | some _ =>
      .ok (sqlite3QueryExec db bm25 query epoch orderBy ascending limit
        lastOrderedValue lastID backward)

/-- postgres `QueryTorrents`: performs only the first validation and is
otherwise an unimplemented stub returning a nil slice and nil error. -/
def postgresQueryTorrents (query : Bytes) (orderBy : OrderingCriteria) :
    Except String (List TorrentMetadata) :=
  if query = [] && orderBy == .ByRelevance then
    .error "torrents cannot be ordered by \"relevance\" when the query is empty"
  else .ok []

/-- True when the Go call returned a non-nil error. -/
def isError {ε α : Type} : Except ε α → Bool
  | .error _ => true
  | .ok _ => false

/-! ### GetStatistics (sqlite3) -/

/-- The granularity values returned by ParseISO8601. -/
inductive Granularity where
  | Year
  | Month
  | Week
  | Day
  | Hour
deriving DecidableEq, Repr

/-- The seconds of the interval chosen by the granularity switch of
sqlite3 `GetStatistics` (time.ParseDuration of 1h, 24h, 168h, 720h,
8760h). -/
def intervalSeconds : Granularity → Int
  | .Hour => 3600
  | .Day => 86400
  | .Week => 604800
  | .Month => 2592000
  | .Year => 31536000

/-- The torrents discovered inside a half-open time window (the WHERE
discovered_on > from AND discovered_on <= until filter). -/
def torrentsBetween (db : DBState) (fromTime untilTime : Int) : List TorrentRow :=
  db.torrents.filter (fun t =>
    decide (fromTime < t.discoveredOn) && decide (t.discoveredOn ≤ untilTime))

/-- One iteration of the statistics loop: COUNT of the torrents with
from < discovered_on <= until; when nonzero, the COUNT of their files
and the SUM of their total_size, else two zeros. -/
def statsPoint (db : DBState) (fromTime untilTime : Int) : Nat × Nat × Nat :=
  if (torrentsBetween db fromTime untilTime).length ≠ 0 then
    ((torrentsBetween db fromTime untilTime).length,
     (db.files.filter (fun f =>
       (torrentsBetween db fromTime untilTime).any (fun t => t.id == f.torrentId))).length,
     (torrentsBetween db fromTime untilTime).foldl (fun acc t => acc + t.totalSize) 0)
  else (0, 0, 0)

/-- The statistics loop: n windows of the given interval, each advancing
from_time to until_time, appending to the three slices in step. -/
def statsLists (db : DBState) (fromTime interval : Int) :
    Nat → List Nat × List Nat × List Nat
  | 0 => ([], [], [])
  | n + 1 =>
    let p := statsPoint db fromTime (fromTime + interval)
    let tl := statsLists db (fromTime + interval) interval n
    (p.1 :: tl.1, p.2.1 :: tl.2.1, p.2.2 :: tl.2.2)

/-- sqlite3 `GetStatistics`, taking the outcome of `ParseISO8601 from`
as an argument (none is a parse failure, reported as an error before the
loop; ParseISO8601 itself lives outside the embedded sources). -/
def sqlite3GetStatistics (db : DBState) (n : Nat)
    (parsed : Option (Int × Granularity)) : Except String Statistics :=
  match parsed with
  | none => .error "parsing @from error"
  | some (fromTime, g) =>
    let l := statsLists db fromTime (intervalSeconds g) n
    .ok ⟨n, l.1, l.2.1, l.2.2⟩

/-! ### MakeDatabase scheme dispatch (interface.go) -/

/-- The outcome of `MakeDatabase`: which engine constructor the URL
scheme dispatches to, or the nil-database-plus-error return. -/
inductive MakeDatabaseResult where
  | sqlite3Db
  | postgresDb
  | failure (msg : String)
deriving DecidableEq, Repr

/-- True when MakeDatabase returned nil with an error. -/
def MakeDatabaseResult.isFailure : MakeDatabaseResult → Bool
  | .failure _ => true
  | _ => false

/-- interface.go `MakeDatabase`: the switch on dbURL.Scheme. -/
def makeDatabaseDispatch (scheme : String) : MakeDatabaseResult :=
  if scheme = "sqlite3" then .sqlite3Db
  else if scheme = "postgresql" then .postgresDb
  else if scheme = "mysql" then .failure "mysql is not yet supported!"
  else .failure "unknown URI scheme (database engine)!"

/-! ### magneticow startup control flow (cmd/magneticow/main.go) -/

/-- The outcome of each fallible startup step of magneticow. -/
structure MagneticowEnv where
  flagsParseOk : Bool
  databaseURLParses : Bool
  bindAddrResolves : Bool
  databaseReachable : Bool
  listenOk : Bool
deriving DecidableEq, Repr

/-- How a magneticow process run ends: an exit with a code, or serving
until killed externally. -/
inductive RunOutcome where
  | exited (code : Nat)
  | serving
deriving DecidableEq, Repr

/-- The startup control flow of magneticow main: a parseFlags error
makes main return (process exit code 0); a database URL that does not
parse or a bind address that does not resolve hits zap Fatal
(os.Exit(1)); a MakeDatabase failure panics (Go runtime exit code 2); a
ListenAndServe error is discarded and main returns (exit code 0);
otherwise the server blocks forever. -/
def magneticowMain (e : MagneticowEnv) : RunOutcome :=
  if e.flagsParseOk = false then .exited 0
  else if e.databaseURLParses = false then .exited 1
  else if e.bindAddrResolves = false then .exited 1
  else if e.databaseReachable = false then .exited 2
  else if e.listenOk = false then .exited 0
  else .serving

/-! ### torrents/{infohash} handler (cmd/magneticow/main.go) -/

/-- encoding/hex digit decoding (0-9, a-f, A-F). -/
def hexVal (c : Char) : Option Nat :=
  if decide (48 ≤ c.toNat) && decide (c.toNat ≤ 57) then some (c.toNat - 48)
  else if decide (97 ≤ c.toNat) && decide (c.toNat ≤ 102) then some (c.toNat - 87)
  else if decide (65 ≤ c.toNat) && decide (c.toNat ≤ 70) then some (c.toNat - 55)
  else none

/-- encoding/hex DecodeString: pairs of hex digits; odd length or a
non-digit is an error. -/
def hexDecodeChars : List Char → Option Bytes
  | [] => some []
  | [_] => none
  | a :: b :: rest =>
    match hexVal a, hexVal b, hexDecodeChars rest with
    | some x, some y, some tl => some ((x * 16 + y) :: tl)
    | _, _, _ => none

/-- `torrentsInfohashHandler`: HTTP status written for a request for
/torrents/{infohash} (400 on a hex decode error, 500 on a database
error, 404 when GetTorrent returns a nil torrent, else the rendered
page, 200). -/
def torrentsInfohashHandler (db : DBState) (infohashHex : String) : Nat :=
  match hexDecodeChars infohashHex.toList with
  | none => 400
  | some infoHash =>
    match sqlite3GetTorrent db infoHash with
    | .error _ => 500
    | .ok none => 404
    | .ok (some _) =>
      match sqlite3GetFiles db infoHash with
      | .error _ => 500
      | .ok _ => 200

/-! ### Call sequences and invariants -/

/-- The arguments of one `AddNewTorrent` call. -/
structure AddCall where
  infoHash : Bytes
  name : Bytes
  files : List File
  now : Int

/-- Run one `AddNewTorrent` call; a call returning an error leaves the
database unchanged (the transaction is rolled back). -/
def runAdd (step : DBState → Bytes → Bytes → List File → Int → Except String DBState)
    (db : DBState) (c : AddCall) : DBState :=
  match step db c.infoHash c.name c.files c.now with
  | .ok db2 => db2
  | .error _ => db

/-- Run a sequence of `AddNewTorrent` calls. -/
def runAdds (step : DBState → Bytes → Bytes → List File → Int → Except String DBState)
    (db : DBState) (calls : List AddCall) : DBState :=
  calls.foldl (runAdd step) db

/-- The UNIQUE(info_hash) invariant of the torrents table. -/
def uniqueHashes (db : DBState) : Prop :=
  (db.torrents.map TorrentRow.infoHash).Nodup

/-- Every stored name and path is valid UTF-8. -/
def validStoredStrings (db : DBState) : Prop :=
  (∀ t ∈ db.torrents, validString t.name = true) ∧
    (∀ f ∈ db.files, validString f.path = true)

theorem hashExists_eq_false_iff (db : DBState) (ih : Bytes) :
    hashExists db ih = false ↔ ih ∉ db.torrents.map TorrentRow.infoHash := by
  simp [hashExists, List.mem_map]

theorem sqlite3InsertFiles_torrents :
    ∀ (fs : List File) (db : DBState) (lid : Nat) (db2 : DBState),
      sqlite3InsertFiles db lid fs = .ok db2 → db2.torrents = db.torrents := by
  intro fs
  induction fs with
  | nil =>
    intro db lid db2 h
    simp only [sqlite3InsertFiles, Except.ok.injEq] at h
    rw [← h]
  | cons f fs ih =>
    intro db lid db2 h
    simp only [sqlite3InsertFiles] at h
    split at h
    · cases h
    · split at h
      · exact (ih _ lid db2 h).trans rfl
      · cases h

theorem postgresInsertFiles_torrents :
    ∀ (fs : List File) (db : DBState) (tid : Nat) (db2 : DBState),
      postgresInsertFiles db tid fs = .ok db2 → db2.torrents = db.torrents := by
  intro fs
  induction fs with
  | nil =>
    intro db tid db2 h
    simp only [postgresInsertFiles, Except.ok.injEq] at h
    rw [← h]
  | cons f fs ih =>
    intro db tid db2 h
    simp only [postgresInsertFiles] at h
    split at h
    · cases h
    · exact (ih _ tid db2 h).trans rfl

/-- Complete case analysis of a successful sqlite3 `AddNewTorrent`. -/
theorem sqlite3Add_ok_torrents (db : DBState) (ih nm : Bytes) (fs : List File) (now : Int)
    (db2 : DBState) (h : sqlite3AddNewTorrent db ih nm fs now = .ok db2) :
    (sumSizes fs = 0 ∧ db2 = db) ∨
    (sumSizes fs ≠ 0 ∧ hashExists db ih = false ∧ 0 < now ∧
      db2.torrents = db.torrents ++ [⟨db.nextTorrentId, ih, nm, sumSizes fs, now⟩]) ∨
    (sumSizes fs ≠ 0 ∧ (hashExists db ih = true ∨ ¬0 < now) ∧
      db2.torrents = db.torrents) := by
  unfold sqlite3AddNewTorrent at h
  split at h
  · next hz =>
    left
    simp only [Except.ok.injEq] at h
    exact ⟨hz, h.symm⟩
  · next hz =>
    split at h
    · cases h
    · split at h
      · next hc =>
        right
        left
        have ht := (sqlite3InsertFiles_torrents fs _ _ db2 h).trans rfl
        simp only [Bool.and_eq_true, Bool.not_eq_eq_eq_not, Bool.not_true,
          decide_eq_true_eq] at hc
        exact ⟨hz, hc.1, hc.2, ht⟩
      · next hc =>
        right
        right
        have ht := sqlite3InsertFiles_torrents fs _ _ db2 h
        simp only [Bool.and_eq_true, Bool.not_eq_eq_eq_not, Bool.not_true,
          decide_eq_true_eq, not_and_or] at hc
        refine ⟨hz, ?_, ht⟩
        rcases hc with hc | hc
        · left
          rcases Bool.eq_false_or_eq_true (hashExists db ih) with hb | hb
          · exact hb
          · exact absurd hb hc
        · right
          exact hc

/-- Complete case analysis of a successful postgres `AddNewTorrent`. -/
theorem postgresAdd_ok_torrents (db : DBState) (ih nm : Bytes) (fs : List File) (now : Int)
    (db2 : DBState) (h : postgresAddNewTorrent db ih nm fs now = .ok db2) :
    (sumSizes fs = 0 ∧ db2 = db) ∨
    (sumSizes fs ≠ 0 ∧ hashExists db ih = false ∧
      db2.torrents =
        db.torrents ++ [⟨db.nextTorrentId, ih, fixUTF8Encoding nm, sumSizes fs, now⟩]) := by
  unfold postgresAddNewTorrent at h
  split at h
  · next hz =>
    left
    simp only [Except.ok.injEq] at h
    exact ⟨hz, h.symm⟩
  · next hz =>
    split at h
    · cases h
    · split at h
      · cases h
      · next hex =>
        right
        have ht := (postgresInsertFiles_torrents fs _ _ db2 h).trans rfl
        refine ⟨hz, ?_, ht⟩
        rcases Bool.eq_false_or_eq_true (hashExists db ih) with hb | hb
        · exact absurd hb hex
        · exact hb

theorem uniqueHashes_of_torrents_eq {db db2 : DBState}
    (h : db2.torrents = db.torrents) (hu : uniqueHashes db) : uniqueHashes db2 := by
  rw [uniqueHashes, h]
  exact hu

theorem uniqueHashes_append {db db2 : DBState} {row : TorrentRow}
    (h : db2.torrents = db.torrents ++ [row]) (hu : uniqueHashes db)
    (hni : hashExists db row.infoHash = false) : uniqueHashes db2 := by
  rw [uniqueHashes, h, List.map_append, List.map_singleton]
  rw [List.nodup_append]
  refine ⟨hu, List.nodup_singleton _, ?_⟩
  intro a ha hb
  rw [List.mem_singleton] at hb
  subst hb
  exact (hashExists_eq_false_iff db row.infoHash).mp hni ha

theorem sqlite3_runAdd_unique (db : DBState) (c : AddCall) (hu : uniqueHashes db) :
    uniqueHashes (runAdd sqlite3AddNewTorrent db c) := by
  rw [runAdd]
  split
  · next db2 h =>
    rcases sqlite3Add_ok_torrents db c.infoHash c.name c.files c.now db2 h with
      ⟨_, he⟩ | ⟨_, hne, _, ht⟩ | ⟨_, _, ht⟩
    · rw [he]; exact hu
    · exact uniqueHashes_append ht hu hne
    · exact uniqueHashes_of_torrents_eq ht hu
  · exact hu

theorem postgres_runAdd_unique (db : DBState) (c : AddCall) (hu : uniqueHashes db) :
    uniqueHashes (runAdd postgresAddNewTorrent db c) := by
  rw [runAdd]
  split
  · next db2 h =>
    rcases postgresAdd_ok_torrents db c.infoHash c.name c.files c.now db2 h with
      ⟨_, he⟩ | ⟨_, hne, ht⟩
    · rw [he]; exact hu
    · exact uniqueHashes_append ht hu hne
  · exact hu

theorem hashExists_runAdd_sqlite (db : DBState) (ih : Bytes) (c : AddCall)
    (h : hashExists db ih = true) :
    hashExists (runAdd sqlite3AddNewTorrent db c) ih = true := by
  rw [runAdd]
  split
  · next db2 hok =>
    rcases sqlite3Add_ok_torrents db c.infoHash c.name c.files c.now db2 hok with
      ⟨_, he⟩ | ⟨_, _, _, ht⟩ | ⟨_, _, ht⟩
    · rw [he]; exact h
    · rw [hashExists, ht, List.any_append]
      rw [hashExists] at h
      rw [h]
      rfl
    · rw [hashExists, ht]
      exact h
  · exact h

theorem hashExists_runAdd_postgres (db : DBState) (ih : Bytes) (c : AddCall)
    (h : hashExists db ih = true) :
    hashExists (runAdd postgresAddNewTorrent db c) ih = true := by
  rw [runAdd]
  split
  · next db2 hok =>
    rcases postgresAdd_ok_torrents db c.infoHash c.name c.files c.now db2 hok with
      ⟨_, he⟩ | ⟨_, _, ht⟩
    · rw [he]; exact h
    · rw [hashExists, ht, List.any_append]
      rw [hashExists] at h
      rw [h]
      rfl
  · exact h

theorem hashExists_runAdds_sqlite (calls : List AddCall) (db : DBState) (ih : Bytes)
    (h : hashExists db ih = true) :
    hashExists (runAdds sqlite3AddNewTorrent db calls) ih = true := by
  induction calls generalizing db with
  | nil => exact h
  | cons c cs ihc => exact ihc _ (hashExists_runAdd_sqlite db ih c h)

theorem hashExists_runAdds_postgres (calls : List AddCall) (db : DBState) (ih : Bytes)
    (h : hashExists db ih = true) :
    hashExists (runAdds postgresAddNewTorrent db calls) ih = true := by
  induction calls generalizing db with
  | nil => exact h
  | cons c cs ihc => exact ihc _ (hashExists_runAdd_postgres db ih c h)

theorem postgresInsertFiles_valid :
    ∀ (fs : List File) (db : DBState) (tid : Nat) (db2 : DBState),
      validStoredStrings db → postgresInsertFiles db tid fs = .ok db2 →
      validStoredStrings db2 := by
  intro fs
  induction fs with
  | nil =>
    intro db tid db2 hv h
    simp only [postgresInsertFiles, Except.ok.injEq] at h
    rw [← h]
    exact hv
  | cons f fs ih =>
    intro db tid db2 hv h
    simp only [postgresInsertFiles] at h
    split at h
    · cases h
    · refine ih _ tid db2 ?_ h
      refine ⟨hv.1, ?_⟩
      intro fr hfr
      rw [List.mem_append] at hfr
      rcases hfr with hfr | hfr
      · exact hv.2 fr hfr
      · rw [List.mem_singleton] at hfr
        subst hfr
        exact fixUTF8Encoding_valid f.path

/-- A successful postgres AddNewTorrent call preserves validity of all
stored names and paths (the inserted name and paths pass through
`fixUTF8Encoding`). -/
theorem postgresAdd_valid (db : DBState) (ih nm : Bytes) (fs : List File) (now : Int)
    (db2 : DBState) (hv : validStoredStrings db)
    (h : postgresAddNewTorrent db ih nm fs now = .ok db2) : validStoredStrings db2 := by
  unfold postgresAddNewTorrent at h
  split at h
  · simp only [Except.ok.injEq] at h
    rw [← h]
    exact hv
  · split at h
    · cases h
    · split at h
      · cases h
      · refine postgresInsertFiles_valid fs _ _ db2 ?_ h
        refine ⟨?_, hv.2⟩
        intro t ht
        rw [List.mem_append] at ht
        rcases ht with ht | ht
        · exact hv.1 t ht
        · rw [List.mem_singleton] at ht
          subst ht
          exact fixUTF8Encoding_valid nm

theorem statsPoint_zero (db : DBState) (f u : Int) (h : (statsPoint db f u).1 = 0) :
    (statsPoint db f u).2.1 = 0 ∧ (statsPoint db f u).2.2 = 0 := by
  unfold statsPoint at h ⊢
  split at h
  · next hne => exact absurd h hne
  · next hne => exact ⟨by rw [if_neg hne], by rw [if_neg hne]⟩

theorem statsLists_lengths :
    ∀ (n : Nat) (db : DBState) (fromTime interval : Int),
      (statsLists db fromTime interval n).1.length = n ∧
      (statsLists db fromTime interval n).2.1.length = n ∧
      (statsLists db fromTime interval n).2.2.length = n := by
  intro n
  induction n with
  | zero => intro db f iv; exact ⟨rfl, rfl, rfl⟩
  | succ m ih =>
    intro db f iv
    have h := ih db (f + iv) iv
    simp only [statsLists, List.length_cons]
    omega

theorem statsLists_zeros :
    ∀ (n : Nat) (db : DBState) (fromTime interval : Int) (i : Nat),
      (statsLists db fromTime interval n).1.getD i 0 = 0 →
      (statsLists db fromTime interval n).2.1.getD i 0 = 0 ∧
      (statsLists db fromTime interval n).2.2.getD i 0 = 0 := by
  intro n
  induction n with
  | zero => intro db f iv i _; exact ⟨rfl, rfl⟩
  | succ m ih =>
    intro db f iv i h
    cases i with
    | zero =>
      simp only [statsLists, List.getD_cons_zero] at h ⊢
      exact statsPoint_zero db f (f + iv) h
    | succ j =>
      simp only [statsLists, List.getD_cons_succ] at h ⊢
      exact ih db (f + iv) iv j h

/-! ### Demonstration constants -/

/-- A sample infohash. -/
def ihA : Bytes := [228, 190]

/-- A sample file of size 100 and path "a". -/
def fileA : File := ⟨100, [97]⟩

/-- The sqlite3 state after inserting ihA into an empty database. -/
def sqliteDb1 : DBState := ⟨[⟨1, ihA, [97], 100, 1000⟩], [⟨1, 1, 100, [97]⟩], 2, 2, 1⟩

/-- The sqlite3 state after the second identical AddNewTorrent call:
the file row is inserted again, attached to the stale LastInsertId. -/
def sqliteDb2 : DBState :=
  ⟨[⟨1, ihA, [97], 100, 1000⟩], [⟨1, 1, 100, [97]⟩, ⟨2, 1, 100, [97]⟩], 2, 3, 2⟩

/-- The postgres state after inserting ihA into an empty database. -/
def pgDb1 : DBState := ⟨[⟨1, ihA, [97], 100, 1000⟩], [⟨1, 1, 100, [97]⟩], 2, 2, 0⟩

theorem fix97 : fixUTF8Encoding [97] = [97] := by
  rw [fixUTF8Encoding, dif_neg (by decide)]
  decide

theorem pgFirstInsert : postgresAddNewTorrent emptyDB ihA [97] [fileA] 1000 = .ok pgDb1 := by
  have h1 : fixUTF8Encoding fileA.path = [97] := fix97
  rw [postgresAddNewTorrent]
  rw [if_neg (by decide), if_neg (by decide), if_neg (by decide)]
  rw [fix97]
  rw [postgresInsertFiles]
  rw [if_neg (by decide)]
  rw [h1]
  rw [postgresInsertFiles]
  decide

/-! ### The claims -/

/-- C1: for every database state satisfying the UNIQUE(info_hash)
invariant (at most one torrents row per infohash), every sequence of
AddNewTorrent calls preserves the invariant, in both the sqlite3 and the
postgres implementations: the conflict-ignoring inserts never create a
second row with an info_hash already present. -/
theorem addNewTorrent_preserves_unique_infoHash
    (calls : List AddCall) (db : DBState) (hu : uniqueHashes db) :
    uniqueHashes (runAdds sqlite3AddNewTorrent db calls) ∧
    uniqueHashes (runAdds postgresAddNewTorrent db calls) := by
  constructor
  · induction calls generalizing db with
    | nil => exact hu
    | cons c cs ih =>
      exact ih (runAdd sqlite3AddNewTorrent db c) (sqlite3_runAdd_unique db c hu)
  · induction calls generalizing db with
    | nil => exact hu
    | cons c cs ih =>
      exact ih (runAdd postgresAddNewTorrent db c) (postgres_runAdd_unique db c hu)

/-- A concrete sequence of AddNewTorrent calls containing a duplicate
infohash. -/
def demoCalls : List AddCall :=
  [⟨[1], [97], [⟨1, [97]⟩], 5⟩, ⟨[2], [98], [⟨2, [98]⟩], 6⟩, ⟨[1], [99], [⟨1, [99]⟩], 7⟩]

/-- Witness for C1: the invariant holds after running a concrete call
sequence with a duplicated infohash from the empty database. -/
theorem addNewTorrent_preserves_unique_infoHash_witness :
    uniqueHashes (runAdds sqlite3AddNewTorrent emptyDB demoCalls) ∧
    uniqueHashes (runAdds postgresAddNewTorrent emptyDB demoCalls) :=
  addNewTorrent_preserves_unique_infoHash demoCalls emptyDB List.nodup_nil

/-- C2: the idempotency contract is broken at a concrete input.  After
AddNewTorrent of ihA succeeds on an empty database, a second identical
call is not a silent no-op: the sqlite3 implementation returns success
but inserts the file rows again, attached to the stale LastInsertId of
the connection, so the state changes (a second files row appears); the
postgres implementation returns an error because ON CONFLICT DO NOTHING
suppresses the row and scanning the empty RETURNING result fails with
sql.ErrNoRows. -/
theorem addNewTorrent_second_call_not_silent_noop :
    sqlite3AddNewTorrent emptyDB ihA [97] [fileA] 1000 = .ok sqliteDb1 ∧
    sqlite3AddNewTorrent sqliteDb1 ihA [97] [fileA] 1001 = .ok sqliteDb2 ∧
    sqliteDb2 ≠ sqliteDb1 ∧
    sqliteDb2.files.length = 2 ∧
    postgresAddNewTorrent emptyDB ihA [97] [fileA] 1000 = .ok pgDb1 ∧
    postgresAddNewTorrent pgDb1 ihA [97] [fileA] 1001 =
      .error "could not insert torrent: sql: no rows in result set" :=
  ⟨by decide, by decide, by decide, by decide, pgFirstInsert, by decide⟩

/-- C3 counterexample: with an empty file list (total size 0) both
implementations return success (a nil error), not an error; the claim
says an error is returned. -/
theorem addNewTorrent_zero_size_returns_no_error :
    sqlite3AddNewTorrent emptyDB [1] [97] [] 5 = .ok emptyDB ∧
    postgresAddNewTorrent emptyDB [1] [97] [] 5 = .ok emptyDB := by decide

/-- C3 amended: when the total file size is 0 AddNewTorrent stores
nothing (the state is unchanged) but returns success rather than an
error: the rejection is silent, in both implementations. -/
theorem addNewTorrent_zero_size_silent_skip
    (db : DBState) (ih nm : Bytes) (fs : List File) (now : Int) (h : sumSizes fs = 0) :
    sqlite3AddNewTorrent db ih nm fs now = .ok db ∧
    postgresAddNewTorrent db ih nm fs now = .ok db := by
  constructor
  · rw [sqlite3AddNewTorrent, if_pos h]
  · rw [postgresAddNewTorrent, if_pos h]

/-- Witness for the amended C3 at a concrete zero-size call. -/
theorem addNewTorrent_zero_size_silent_skip_witness :
    sqlite3AddNewTorrent emptyDB [2] [98] [] 6 = .ok emptyDB ∧
    postgresAddNewTorrent emptyDB [2] [98] [] 6 = .ok emptyDB :=
  addNewTorrent_zero_size_silent_skip emptyDB [2] [98] [] 6 (by decide)

/-- C4 counterexample: AddNewTorrent with an empty file list returns
success, yet the immediately following DoesTorrentExist returns false,
in both implementations. -/
theorem addNewTorrent_success_without_storing :
    sqlite3AddNewTorrent emptyDB [3] [97] [] 7 = .ok emptyDB ∧
    sqlite3DoesTorrentExist emptyDB [3] = .ok false ∧
    postgresAddNewTorrent emptyDB [3] [97] [] 7 = .ok emptyDB ∧
    postgresDoesTorrentExist emptyDB [3] = .ok false := by decide

/-- C4 amended: when the (uint64) total size is nonzero — and, for
sqlite3, the insertion timestamp is positive, as time.Now().Unix always
is — a successful AddNewTorrent makes every subsequent DoesTorrentExist
for that infohash return true, across any further AddNewTorrent calls
(no modelled operation removes torrents). -/
theorem addNewTorrent_success_implies_exists :
    (∀ (db : DBState) (ih nm : Bytes) (fs : List File) (now : Int) (db2 : DBState),
      sumSizes fs ≠ 0 → 0 < now → sqlite3AddNewTorrent db ih nm fs now = .ok db2 →
      ∀ calls,
        sqlite3DoesTorrentExist (runAdds sqlite3AddNewTorrent db2 calls) ih = .ok true) ∧
    (∀ (db : DBState) (ih nm : Bytes) (fs : List File) (now : Int) (db2 : DBState),
      sumSizes fs ≠ 0 → postgresAddNewTorrent db ih nm fs now = .ok db2 →
      ∀ calls,
        postgresDoesTorrentExist (runAdds postgresAddNewTorrent db2 calls) ih = .ok true) := by
  constructor
  · intro db ih nm fs now db2 hs hn hok calls
    have hex : hashExists db2 ih = true := by
      rcases sqlite3Add_ok_torrents db ih nm fs now db2 hok with
        ⟨h0, _⟩ | ⟨_, _, _, ht⟩ | ⟨_, hc, ht⟩
      · exact absurd h0 hs
      · rw [hashExists, ht, List.any_append]
        simp
      · rcases hc with hc | hc
        · rw [hashExists, ht]
          exact hc
        · exact absurd hn hc
    rw [sqlite3DoesTorrentExist, hashExists_runAdds_sqlite calls db2 ih hex]
  · intro db ih nm fs now db2 hs hok calls
    have hex : hashExists db2 ih = true := by
      rcases postgresAdd_ok_torrents db ih nm fs now db2 hok with ⟨h0, _⟩ | ⟨_, _, ht⟩
      · exact absurd h0 hs
      · rw [hashExists, ht, List.any_append]
        simp
    rw [postgresDoesTorrentExist, hashExists_runAdds_postgres calls db2 ih hex]

/-- The sqlite3 state after inserting infohash 04 into an empty
database. -/
def sqliteW : DBState := ⟨[⟨1, [4], [97], 100, 9⟩], [⟨1, 1, 100, [97]⟩], 2, 2, 1⟩

/-- Witness for the amended C4 at concrete successful inserts. -/
theorem addNewTorrent_success_implies_exists_witness :
    sqlite3DoesTorrentExist (runAdds sqlite3AddNewTorrent sqliteW []) [4] = .ok true ∧
    postgresDoesTorrentExist (runAdds postgresAddNewTorrent pgDb1 []) ihA = .ok true :=
  ⟨addNewTorrent_success_implies_exists.1 emptyDB [4] [97] [fileA] 9 sqliteW (by decide)
      (by decide) (by decide) [],
   addNewTorrent_success_implies_exists.2 emptyDB ihA [97] [fileA] 1000 pgDb1 (by decide)
      pgFirstInsert []⟩

/-- C5 counterexample: the sqlite3 implementation stores name and path
bytes unchanged: the byte 0xFF is not valid UTF-8 and is stored as-is in
both the torrents row and the files row. -/
theorem sqlite3_stores_invalid_utf8 :
    sqlite3AddNewTorrent emptyDB [5] [255] [⟨1, [255]⟩] 5 =
      .ok ⟨[⟨1, [5], [255], 1, 5⟩], [⟨1, 1, 1, [255]⟩], 2, 2, 1⟩ ∧
    validString [255] = false := by decide

/-- C5 amended: only the postgres implementation sanitizes: a successful
postgres AddNewTorrent preserves validity of every stored name and path
(the inserted name and file paths pass through fixUTF8Encoding, whose
output is always valid UTF-8); the sqlite3 implementation stores the raw
bytes. -/
theorem postgres_never_stores_invalid_utf8
    (db : DBState) (ih nm : Bytes) (fs : List File) (now : Int) (db2 : DBState)
    (hv : validStoredStrings db) (h : postgresAddNewTorrent db ih nm fs now = .ok db2) :
    validStoredStrings db2 :=
  postgresAdd_valid db ih nm fs now db2 hv h

/-- Witness for the amended C5: the state reached by a concrete postgres
insert has only valid stored strings. -/
theorem postgres_never_stores_invalid_utf8_witness : validStoredStrings pgDb1 :=
  postgres_never_stores_invalid_utf8 emptyDB ihA [97] [fileA] 1000 pgDb1
    (by constructor <;> simp [emptyDB]) pgFirstInsert

/-- C6: MakeDatabase dispatches the sqlite3 scheme to the sqlite3
constructor and the postgresql scheme to the postgres constructor, and
returns a nil database with an error for every other scheme, mysql
included. -/
theorem makeDatabase_scheme_dispatch :
    makeDatabaseDispatch "sqlite3" = .sqlite3Db ∧
    makeDatabaseDispatch "postgresql" = .postgresDb ∧
    ∀ s : String, s ≠ "sqlite3" → s ≠ "postgresql" →
      (makeDatabaseDispatch s).isFailure = true := by
  refine ⟨rfl, rfl, ?_⟩
  intro s h1 h2
  rw [makeDatabaseDispatch, if_neg h1, if_neg h2]
  by_cases h3 : s = "mysql"
  · rw [if_pos h3]
    rfl
  · rw [if_neg h3]
    rfl

/-- Witness for C6 at the mysql scheme. -/
theorem makeDatabase_scheme_dispatch_witness :
    (makeDatabaseDispatch "mysql").isFailure = true :=
  makeDatabase_scheme_dispatch.2.2 "mysql" (by decide) (by decide)

/-- C7 counterexample: exit code 0 is not reserved for normal shutdown:
a ListenAndServe failure (its error is discarded) and a flags.Parse
failure both make main return with process exit code 0 although they are
startup failures. -/
theorem magneticow_exit_zero_on_startup_failure :
    magneticowMain ⟨true, true, true, true, false⟩ = .exited 0 ∧
    magneticowMain ⟨false, true, true, true, true⟩ = .exited 0 := by decide

/-- C7 amended: when the command-line flags parse, each enumerated fatal
startup error — a database URL that does not parse, a bind address that
does not resolve, an unreachable database — exits with a nonzero code
(1, 1, and 2 via panic); however a flags.Parse failure or a listen
failure exits 0, so exit code 0 does not imply normal shutdown. -/
theorem magneticow_config_errors_exit_nonzero
    (e : MagneticowEnv) (h1 : e.flagsParseOk = true)
    (h2 : e.databaseURLParses = false ∨ e.bindAddrResolves = false ∨
      e.databaseReachable = false) :
    ∃ c, magneticowMain e = .exited c ∧ c ≠ 0 := by
  obtain ⟨f, u, b, d, l⟩ := e
  simp only at h1
  subst h1
  cases u with
  | false => exact ⟨1, by simp [magneticowMain], by decide⟩
  | true =>
    cases b with
    | false => exact ⟨1, by simp [magneticowMain], by decide⟩
    | true =>
      cases d with
      | false => exact ⟨2, by simp [magneticowMain], by decide⟩
      | true => simp at h2

/-- Witness for the amended C7: a bad database URL exits nonzero. -/
theorem magneticow_config_errors_exit_nonzero_witness :
    ∃ c, magneticowMain ⟨true, false, true, true, true⟩ = .exited c ∧ c ≠ 0 :=
  magneticow_config_errors_exit_nonzero ⟨true, false, true, true, true⟩ rfl (Or.inl rfl)

/-- C8: for an infohash with no torrents row, GetTorrent returns a nil
metadata pointer together with a nil error in both implementations, and
the torrents/{infohash} handler answers 404 for any hex string decoding
to that infohash. -/
theorem getTorrent_missing_returns_ok_none
    (db : DBState) (ih : Bytes) (h : hashExists db ih = false) :
    sqlite3GetTorrent db ih = .ok none ∧ postgresGetTorrent db ih = .ok none ∧
    ∀ s : String, hexDecodeChars s.toList = some ih → torrentsInfohashHandler db s = 404 := by
  have hm := (hashExists_eq_false_iff db ih).mp h
  have hf : db.torrents.find? (fun t => t.infoHash == ih) = none := by
    rw [List.find?_eq_none]
    intro t ht hbe
    rw [beq_iff_eq] at hbe
    exact hm (List.mem_map.mpr ⟨t, ht, hbe⟩)
  refine ⟨?_, ?_, ?_⟩
  · simp only [sqlite3GetTorrent, hf]
  · simp only [postgresGetTorrent, hf]
  · intro s hs
    simp only [torrentsInfohashHandler, hs, sqlite3GetTorrent, hf]

/-- Witness for C8: the empty database and the hex string 00. -/
theorem getTorrent_missing_returns_ok_none_witness :
    sqlite3GetTorrent emptyDB [0] = .ok none ∧ postgresGetTorrent emptyDB [0] = .ok none ∧
    torrentsInfohashHandler emptyDB "00" = 404 :=
  have h := getTorrent_missing_returns_ok_none emptyDB [0] (by decide)
  ⟨h.1, h.2.1, h.2.2 "00" (by decide)⟩

/-- C9: QueryTorrents validates before touching the database: an empty
query ordered by relevance is rejected with an error by both
implementations, and the sqlite3 implementation also rejects supplying
exactly one of lastOrderedValue and lastID (zero meaning absent); the
error returns carry no rows. -/
theorem queryTorrents_validates_arguments :
    (∀ (db : DBState) (bm25 : Bytes → Bytes → Option Int) (epoch : Int) (ascending : Bool)
        (limit lastOrderedValue lastID : Nat) (backward : Bool),
      sqlite3QueryTorrents db bm25 [] epoch .ByRelevance ascending limit lastOrderedValue
          lastID backward =
        .error "torrents cannot be ordered by relevance when the query is empty") ∧
    postgresQueryTorrents [] .ByRelevance =
      .error "torrents cannot be ordered by \"relevance\" when the query is empty" ∧
    (∀ (db : DBState) (bm25 : Bytes → Bytes → Option Int) (query : Bytes) (epoch : Int)
        (orderBy : OrderingCriteria) (ascending : Bool)
        (limit lastOrderedValue lastID : Nat) (backward : Bool),
      (lastOrderedValue = 0 ∧ lastID ≠ 0) ∨ (lastOrderedValue ≠ 0 ∧ lastID = 0) →
      isError (sqlite3QueryTorrents db bm25 query epoch orderBy ascending limit
        lastOrderedValue lastID backward) = true) := by
  refine ⟨?_, rfl, ?_⟩
  · intro db bm25 epoch ascending limit lOV lID backward
    rfl
  · intro db bm25 query epoch orderBy ascending limit lOV lID backward h
    rw [sqlite3QueryTorrents]
    split
    · rfl
    · split
      · rfl
      · next hcond =>
        exfalso
        rcases h with ⟨h0, hn⟩ | ⟨h0, hn⟩ <;> simp [h0, hn] at hcond

/-- Witness for C9 at concrete invalid calls. -/
theorem queryTorrents_validates_arguments_witness :
    sqlite3QueryTorrents emptyDB (fun _ _ => none) [] 0 .ByRelevance true 20 0 0 false =
      .error "torrents cannot be ordered by relevance when the query is empty" ∧
    isError (sqlite3QueryTorrents emptyDB (fun _ _ => none) [97] 0 .BySize false 20 5 0
      false) = true :=
  ⟨queryTorrents_validates_arguments.1 emptyDB (fun _ _ => none) 0 true 20 0 0 false,
   queryTorrents_validates_arguments.2.2 emptyDB (fun _ _ => none) [97] 0 .BySize false 20 5 0
     false (Or.inr ⟨by decide, rfl⟩)⟩

/-- C10: a successful sqlite3 GetStatistics call for any parsed from
value returns N = n and three slices of length exactly n, with NFiles
and TotalSize zero on every interval where NTorrents is zero. -/
theorem getStatistics_shape
    (db : DBState) (n : Nat) (fromTime : Int) (g : Granularity) (stats : Statistics)
    (h : sqlite3GetStatistics db n (some (fromTime, g)) = .ok stats) :
    stats.N = n ∧ stats.NTorrents.length = n ∧ stats.NFiles.length = n ∧
      stats.TotalSize.length = n ∧
      ∀ i, stats.NTorrents.getD i 0 = 0 →
        stats.NFiles.getD i 0 = 0 ∧ stats.TotalSize.getD i 0 = 0 := by
  simp only [sqlite3GetStatistics, Except.ok.injEq] at h
  subst h
  have hl := statsLists_lengths n db fromTime (intervalSeconds g)
  exact ⟨rfl, hl.1, hl.2.1, hl.2.2,
    fun i hi => statsLists_zeros n db fromTime (intervalSeconds g) i hi⟩

/-- The statistics of two empty hour windows. -/
def statsW : Statistics := ⟨2, [0, 0], [0, 0], [0, 0]⟩

/-- Witness for C10 on the empty database with two data points. -/
theorem getStatistics_shape_witness :
    statsW.N = 2 ∧ statsW.NTorrents.length = 2 ∧ statsW.NFiles.getD 0 0 = 0 ∧
      statsW.TotalSize.getD 0 0 = 0 :=
  have h := getStatistics_shape emptyDB 2 0 .Hour statsW (by decide)
  ⟨h.1, h.2.1, (h.2.2.2.2 0 (by decide)).1, (h.2.2.2.2 0 (by decide)).2⟩

end Magnetico
